import Mathlib

/-!
Verification of the delly `annotate.cpp` breakpoint-refinement driver.

The C++ translation unit `src/annotate.cpp` contains the annotation driver
`runAnnotate` and the command surface `main`.  The alignment helpers
(`_consRefAlignment`, `_findSplit`, `_findHomology`) and the entropy scorer
live in headers that are not part of this translation unit; the driver is
therefore embedded as a function parameterized over those collaborators,
and the entropy scorer is modelled from the specification.

Strings are embedded as `List Char`; the signed C++ indices (`TAIndex`,
`int32_t`) are embedded as `Int`.
-/

namespace DellyAnnotate

abbrev Str := List Char

/-- Embeds `boost::to_upper_copy`. -/
def toUpperStr (s : Str) : Str := s.map Char.toUpper

/-- The chromosome slice `std::string(seq->seq.s + lo, seq->seq.s + hi)`,
taken over the half-open interval `[lo, hi)`. -/
def sliceStr (s : Str) (lo hi : Int) : Str := (s.drop lo.toNat).take (hi - lo).toNat

/-- Embeds `std::string::substr(pos, len)`, total version (out-of-range reads are
truncated; the bounds-checked model is `substrB` below). -/
def substrT (s : Str) (pos len : Int) : Str := (s.drop pos.toNat).take len.toNat

/-- Bounds-checked `substr(pos, len)`: `some` exactly when every character
position read, `pos, …, pos+len-1`, lies inside the string (`pos ≥ 0` and
`pos + len ≤ |s|`); a negative C++ index converts to a huge `size_t` and
throws, an index past the end reads no valid base. -/
def substrB (s : Str) (pos len : Int) : Option Str :=
  if 0 ≤ pos ∧ pos + len ≤ (s.length : Int) then
    some ((s.drop pos.toNat).take len.toNat)
  else none

/-- The SV type tag: `main` dispatches only `SVType<DeletionTag>` and
`SVType<InsertionTag>` to `runAnnotate`. -/
inductive SvTag where
  | del : SvTag
  | ins : SvTag

/-- Embeds `_addID` for the two dispatched tags. -/
def addID : SvTag → String
  | SvTag.del => "DEL"
  | SvTag.ins => "INS"

/-- The symbolic ALT allele `"<" + _addID(svType) + ">"`. -/
def symbolicAlt (svType : SvTag) : Str :=
  ('<' :: (addID svType).toList) ++ ['>']

/-- The INFO/FLAG content of a candidate record, through the per-record
accessor interface of the variant-source collaborator
(`bcf_get_info_*`): `SVTYPE`, `END`, `PRECISE`, `CONSENSUS`, and the
annotation fields the driver writes (`INSLEN`, `SRQ`, `CE`,
`MICROHOMLEN`). -/
structure InfoFields where
  svtype : Option String
  endPos : Option Int
  precise : Bool
  consensus : Str
  inslen : Option Int
  srq : Option ℝ
  ce : Option ℝ
  microhomlen : Option Int

/-- A candidate record (`bcf1_t` as the driver reads and writes it). -/
structure BcfRecord where
  chrName : String
  pos : Int
  refAllele : Str
  altAllele : Str
  info : InfoFields

/-- The breakpoint returned by `_findSplit`: consensus range `[cStart,cEnd)`,
reference-window range `[rStart,rEnd)`, raw matrix indices `(gS,gE)` and an
alignment quality. -/
structure Split where
  cStart : Int
  cEnd : Int
  rStart : Int
  rEnd : Int
  gS : Int
  gE : Int
  quality : ℝ

/-- The external alignment collaborators (`junction.h`, not part of this
translation unit): the aligner, the split locator, and the homology
detector, abstracted over the alignment-matrix type `M`. -/
structure Oracle (M : Type) where
  consRefAlignment : Str → Str → Option M
  findSplit : M → Option Split
  findHomology : M → Int → Int → Int × Int

/-- Embeds `svlen`: `*svend - rec->pos` when `END` is present, `1` otherwise. -/
def svLength (rec : BcfRecord) : Int :=
  match rec.info.endPos with
  | some e => e - rec.pos
  | none => 1

/-- The uppercased consensus sequence of a record. -/
def consensusOf (rec : BcfRecord) : Str := toUpperStr rec.info.consensus

/-- Embeds `regStart = std::max(rec->pos - consLen, 0)`. -/
def regStartOf (rec : BcfRecord) : Int :=
  max (rec.pos - ((consensusOf rec).length : Int)) 0

/-- Embeds `regEnd = std::min(*svend + consLen, seq->seq.l)`.  The C++ dereferences
the htslib `END` buffer, which is meaningful only when the record carries
`END`; the absent case is modelled by `getD 0` and every theorem about the
window hypothesizes that `END` is present. -/
def regEndOf (seqStr : Str) (rec : BcfRecord) : Int :=
  min (rec.info.endPos.getD 0 + ((consensusOf rec).length : Int)) (seqStr.length : Int)

/-- Embeds `svRefStr`: the uppercased chromosome slice `[regStart, regEnd)`. -/
def windowOf (seqStr : Str) (rec : BcfRecord) : Str :=
  toUpperStr (sliceStr seqStr (regStartOf rec) (regEndOf seqStr rec))

/-- Modelled from the spec: the Sequence Complexity Scorer `entropy`
(in `util.h`, not part of this translation unit) — Shannon entropy in bits
over the empirical symbol-frequency distribution. -/
noncomputable def entropy (s : Str) : ℝ :=
  -∑ c ∈ s.toFinset,
    ((s.count c : ℝ) / (s.length : ℝ)) * Real.logb 2 ((s.count c : ℝ) / (s.length : ℝ))

/-- The result of processing one candidate record: the record as written,
the `(consensus, svRefStr)` pair handed to `_consRefAlignment` (`none` when
the re-alignment attempt was not entered), and the `(homLeft, homRight)`
pair computed by `_findHomology` (`none` when it was not invoked). -/
structure StepResult where
  out : BcfRecord
  alignerInput : Option (Str × Str)
  homology : Option (Int × Int)

/-- The fallback record (`useTags` path, lines 223-229): `REF` is the
uppercased single chromosome base at `rec->pos`, `ALT` is the symbolic
tag; position and INFO fields are left untouched. -/
def fallbackRec (svType : SvTag) (seqStr : Str) (rec : BcfRecord) : BcfRecord :=
  { rec with
    refAllele := toUpperStr (sliceStr seqStr rec.pos (rec.pos + 1))
    altAllele := symbolicAlt svType }

/-- The record written on the refined path (lines 200-219). -/
noncomputable def refinedRec (rec : BcfRecord) (svRefStr consensus : Str)
    (regStart : Int) (sp : Split) : BcfRecord :=
  let precChar := substrT svRefStr (sp.rStart - 2) 1
  let refPart := precChar ++
    (if sp.rStart + 1 < sp.rEnd then substrT svRefStr (sp.rStart - 1) (sp.rEnd - sp.rStart) else [])
  let altPart := precChar ++
    (if sp.cStart + 1 < sp.cEnd then substrT consensus (sp.cStart - 1) (sp.cEnd - sp.cStart) else [])
  { rec with
    pos := regStart + sp.rStart - 2
    refAllele := refPart
    altAllele := altPart
    info := { rec.info with
      endPos := some (regStart + sp.rEnd)
      inslen := some (sp.cEnd - sp.cStart - 1)
      srq := some sp.quality
      ce := some (entropy consensus) } }

/-- The loop body after the SV-type filter (lines 148-229): eligibility
check, re-alignment attempt, and the refine-vs-fallback decision. -/
noncomputable def processBody {M : Type} (O : Oracle M) (maxlen : Int) (svType : SvTag)
    (seqStr : Str) (rec : BcfRecord) : StepResult :=
  if svLength rec ≤ maxlen ∧ rec.info.precise then
    let consensus := consensusOf rec
    let svRefStr := windowOf seqStr rec
    match O.consRefAlignment consensus svRefStr with
    | none =>
      { out := fallbackRec svType seqStr rec
        alignerInput := some (consensus, svRefStr)
        homology := none }
    | some m =>
      match O.findSplit m with
      | none =>
        { out := fallbackRec svType seqStr rec
          alignerInput := some (consensus, svRefStr)
          homology := none }
      | some sp =>
        { out := refinedRec rec svRefStr consensus (regStartOf rec) sp
          alignerInput := some (consensus, svRefStr)
          homology := some (O.findHomology m sp.gS sp.gE) }
  else
    { out := fallbackRec svType seqStr rec
      alignerInput := none
      homology := none }

/-- One iteration of the record loop (lines 139-231): the SV-type filter
(`continue` yields `none`, a written record yields `some`). -/
noncomputable def processRecord {M : Type} (O : Oracle M) (maxlen : Int) (svType : SvTag)
    (seqStr : Str) (rec : BcfRecord) : Option StepResult :=
  if rec.info.svtype ≠ none ∧ rec.info.svtype ≠ some (addID svType) then none
  else some (processBody O maxlen svType seqStr rec)

/-- One header schema rewrite step (lines 96-105): `bcf_hdr_remove` of an
INFO id followed by `bcf_hdr_append` of a fresh declaration of the same id. -/
def hdrStep (ids : List String) (tag : String) : List String :=
  (ids.filter (fun t => t ≠ tag)) ++ [tag]

/-- The output header INFO ids: the input ids rewritten for `END`,
`INSLEN`, `SRQ`, `CE` and `MICROHOMLEN` in source order. -/
def hdrOutInfo (ids : List String) : List String :=
  hdrStep (hdrStep (hdrStep (hdrStep (hdrStep ids "END") "INSLEN") "SRQ") "CE") "MICROHOMLEN"

/-- The per-chromosome iteration (lines 131-235): a genome sequence is
skipped when its name is not a header contig (`bcf_hdr_name2id < 0`);
otherwise the region query yields the candidate records of that
chromosome, each processed and, unless the SV-type filter dropped it,
written.  Records are tagged with their index in the input so that
emission multiplicity can be stated. -/
noncomputable def emitChrom {M : Type} (O : Oracle M) (maxlen : Int) (svType : SvTag)
    (seqStr : Str) (name : String) : List (Nat × BcfRecord) → List (Nat × BcfRecord)
  | [] => []
  | q :: l =>
    if q.2.chrName == name then
      match processRecord O maxlen svType seqStr q.2 with
      | none => emitChrom O maxlen svType seqStr name l
      | some s => (q.1, s.out) :: emitChrom O maxlen svType seqStr name l
    else emitChrom O maxlen svType seqStr name l

noncomputable def perChrom {M : Type} (O : Oracle M) (maxlen : Int) (svType : SvTag)
    (hdrNames : List String) (recsI : List (Nat × BcfRecord)) (p : String × Str) :
    List (Nat × BcfRecord) :=
  if p.1 ∈ hdrNames then emitChrom O maxlen svType p.2 p.1 recsI
  else []

/-- The driver `runAnnotate` at the record level: iterate the genome
sequences in file order and collect every written record, paired with
the input index of the candidate it came from. -/
noncomputable def runAnnotateOut {M : Type} (O : Oracle M) (maxlen : Int) (svType : SvTag)
    (hdrNames : List String) (genome : List (String × Str)) (recs : List BcfRecord) :
    List (Nat × BcfRecord) :=
  genome.flatMap (perChrom O maxlen svType hdrNames recs.enum)

/-- The outcome of `main`: exit status, the lines written to `std::cerr`,
and whether `runAnnotate` was invoked. -/
structure MainOutcome where
  exitCode : Int
  diag : List String
  invokedCore : Bool

/-- The command surface `main` (lines 264-330), as a function of the
parsed-option state and the file-system facts about the reference path:
usage exit, the reference-file check
`exists && is_regular_file && file_size`, then the SV-type dispatch. -/
def mainRun (helpOrNoInfile : Bool) (genomeExists genomeIsRegular : Bool)
    (genomeSize : Nat) (svType : String) : MainOutcome :=
  if helpOrNoInfile then { exitCode := 1, diag := [], invokedCore := false }
  else if (genomeExists && genomeIsRegular && !(genomeSize == 0)) = false then
    { exitCode := 1, diag := ["Reference file is missing: "], invokedCore := false }
  else if svType = "DEL" then { exitCode := 0, diag := [], invokedCore := true }
  else if svType = "INS" then { exitCode := 0, diag := [], invokedCore := true }
  else { exitCode := 1, diag := ["SV analysis type not yet supported "], invokedCore := false }

/-- Bounds-checked model of the refined-path allele composition
(lines 200-204): the anchor-base read `svRefStr.substr(rStart-2, 1)`, the
guarded reference-span read `svRefStr.substr(rStart-1, rEnd-rStart)` and
the guarded consensus-span read `consensus.substr(cStart-1, cEnd-cStart)`,
each `none` on an out-of-range access. -/
def composeChecked (consensus svRefStr : Str) (cStart cEnd rStart rEnd : Int) :
    Option (Str × Str) :=
  match substrB svRefStr (rStart - 2) 1 with
  | none => none
  | some precChar =>
    match (if rStart + 1 < rEnd then substrB svRefStr (rStart - 1) (rEnd - rStart) else some []) with
    | none => none
    | some refSpan =>
      match (if cStart + 1 < cEnd then substrB consensus (cStart - 1) (cEnd - cStart) else some []) with
      | none => none
      | some altSpan => some (precChar ++ refSpan, precChar ++ altSpan)

/-- The spec wording of the reference window (data-model section): the
uppercased chromosome substring over
`[max(pos − L, 0), min(end + L, N))`. -/
def windowSpec (seqStr : Str) (pos e lenC : Int) : Str :=
  sliceStr (toUpperStr seqStr) (max (pos - lenC) 0) (min (e + lenC) ((toUpperStr seqStr).length : Int))

/-! Concrete fixtures used to instantiate theorems with hypotheses. -/

/-- A candidate INFO state: no `SVTYPE`, `END = 4`, `PRECISE` set,
consensus `ACGT`. -/
def infoD : InfoFields :=
  { svtype := none, endPos := some 4, precise := true, consensus := "ACGT".toList,
    inslen := none, srq := none, ce := none, microhomlen := none }

/-- A candidate record at position 2 on `chr1`. -/
def recD : BcfRecord :=
  { chrName := "chr1", pos := 2, refAllele := [], altAllele := [], info := infoD }

/-- A chromosome sequence of length 8. -/
def seqD : Str := "ACGTACGT".toList

/-- A collaborator whose aligner always fails. -/
def oracleNone : Oracle Unit :=
  { consRefAlignment := fun _ _ => none, findSplit := fun _ => none,
    findHomology := fun _ _ _ => (0, 0) }

/-- A breakpoint whose reference span `[rStart, rEnd)` has length exactly 1. -/
def spSingle : Split :=
  { cStart := 2, cEnd := 3, rStart := 3, rEnd := 4, gS := 0, gE := 0, quality := 0 }

/-- A breakpoint with a reference span of length 3 and a consensus span of
length 1. -/
def spWide : Split :=
  { cStart := 2, cEnd := 3, rStart := 3, rEnd := 6, gS := 1, gE := 2, quality := 0 }

/-- A collaborator that aligns and locates the given breakpoint. -/
def oracleOf (sp : Split) : Oracle Unit :=
  { consRefAlignment := fun _ _ => some (), findSplit := fun _ => some sp,
    findHomology := fun _ _ _ => (1, 2) }

end DellyAnnotate

namespace DellyAnnotate

/-! Helper lemmas about the driver. -/

theorem processRecord_eq_some {M : Type} (O : Oracle M) (maxlen : Int) (svType : SvTag)
    (seqStr : Str) (rec : BcfRecord)
    (h1 : rec.info.svtype = none ∨ rec.info.svtype = some (addID svType)) :
    processRecord O maxlen svType seqStr rec = some (processBody O maxlen svType seqStr rec) := by
  unfold processRecord
  rcases h1 with h | h <;> simp [h]

theorem processRecord_eq_none {M : Type} (O : Oracle M) (maxlen : Int) (svType : SvTag)
    (seqStr : Str) (rec : BcfRecord)
    (h1 : ¬(rec.info.svtype = none ∨ rec.info.svtype = some (addID svType))) :
    processRecord O maxlen svType seqStr rec = none := by
  unfold processRecord
  push_neg at h1
  simp [h1.1, h1.2]

theorem processBody_refined {M : Type} (O : Oracle M) (maxlen : Int) (svType : SvTag)
    (seqStr : Str) (rec : BcfRecord) (m : M) (sp : Split)
    (h2 : svLength rec ≤ maxlen ∧ rec.info.precise = true)
    (h3 : O.consRefAlignment (consensusOf rec) (windowOf seqStr rec) = some m)
    (h4 : O.findSplit m = some sp) :
    processBody O maxlen svType seqStr rec =
      { out := refinedRec rec (windowOf seqStr rec) (consensusOf rec) (regStartOf rec) sp
        alignerInput := some (consensusOf rec, windowOf seqStr rec)
        homology := some (O.findHomology m sp.gS sp.gE) } := by
  unfold processBody
  rw [if_pos h2]
  simp only [h3, h4]

theorem processBody_fallback_out {M : Type} (O : Oracle M) (maxlen : Int) (svType : SvTag)
    (seqStr : Str) (rec : BcfRecord)
    (h : ¬(svLength rec ≤ maxlen ∧ rec.info.precise = true) ∨
         O.consRefAlignment (consensusOf rec) (windowOf seqStr rec) = none ∨
         (∃ m, O.consRefAlignment (consensusOf rec) (windowOf seqStr rec) = some m ∧
               O.findSplit m = none)) :
    (processBody O maxlen svType seqStr rec).out = fallbackRec svType seqStr rec := by
  unfold processBody
  by_cases hel : svLength rec ≤ maxlen ∧ rec.info.precise = true
  · rw [if_pos hel]
    rcases h with h | h | ⟨m, hm, hs⟩
    · exact absurd hel h
    · simp only [h]
    · simp only [hm, hs]
  · rw [if_neg hel]

theorem processBody_alignerInput {M : Type} (O : Oracle M) (maxlen : Int) (svType : SvTag)
    (seqStr : Str) (rec : BcfRecord)
    (h2 : svLength rec ≤ maxlen ∧ rec.info.precise = true) :
    (processBody O maxlen svType seqStr rec).alignerInput =
      some (consensusOf rec, windowOf seqStr rec) := by
  unfold processBody
  rw [if_pos h2]
  cases hA : O.consRefAlignment (consensusOf rec) (windowOf seqStr rec) with
  | none => simp only [hA]
  | some m =>
    cases hS : O.findSplit m with
    | none => simp only [hA, hS]
    | some sp => simp only [hA, hS]

theorem length_toUpperStr (s : Str) : (toUpperStr s).length = s.length := by
  simp [toUpperStr]

theorem substrB_pos (s : Str) (pos len : Int) (h1 : 0 ≤ pos) (h2 : pos + len ≤ (s.length : Int)) :
    substrB s pos len = some ((s.drop pos.toNat).take len.toNat) := by
  unfold substrB
  rw [if_pos ⟨h1, h2⟩]

theorem toUpperStr_sliceStr (s : Str) (lo hi : Int) :
    toUpperStr (sliceStr s lo hi) = sliceStr (toUpperStr s) lo hi := by
  simp [toUpperStr, sliceStr, List.map_take, List.map_drop]

/-! Entropy lemmas. -/

theorem entropy_nil : entropy [] = 0 := by
  simp [entropy]

theorem entropy_single (c : Char) : entropy [c] = 0 := by
  simp [entropy]

theorem entropy_perm (s t : Str) (h : s.Perm t) : entropy s = entropy t := by
  unfold entropy
  rw [List.toFinset_eq_of_perm s t h, h.length_eq]
  refine congrArg Neg.neg (Finset.sum_congr rfl fun c hc => ?_)
  rw [h.count_eq]

theorem entropy_AAAA : entropy ("AAAA".toList) = 0 := by
  have h1 : ("AAAA".toList).toFinset = {'A'} := by decide
  have hc : ("AAAA".toList).count 'A' = 4 := by decide
  have hl : ("AAAA".toList).length = 4 := by decide
  unfold entropy
  rw [h1, Finset.sum_singleton, hc, hl]
  norm_num [Real.logb_one]

theorem logb_two_quarter : Real.logb 2 ((1 : ℝ)/4) = -2 := by
  have h4 : Real.logb 2 (4 : ℝ) = 2 := by
    have he : (4 : ℝ) = 2 ^ (2 : ℕ) := by norm_num
    rw [he, Real.logb_pow, Real.logb_self_eq_one (by norm_num)]
    norm_num
  rw [one_div, Real.logb_inv, h4]

theorem entropy_ACGT : entropy ("ACGT".toList) = 2 := by
  have h1 : ("ACGT".toList).toFinset = {'A', 'C', 'G', 'T'} := by decide
  have cA : ("ACGT".toList).count 'A' = 1 := by decide
  have cC : ("ACGT".toList).count 'C' = 1 := by decide
  have cG : ("ACGT".toList).count 'G' = 1 := by decide
  have cT : ("ACGT".toList).count 'T' = 1 := by decide
  have hl : ("ACGT".toList).length = 4 := by decide
  unfold entropy
  rw [h1, Finset.sum_insert (by decide), Finset.sum_insert (by decide),
    Finset.sum_insert (by decide), Finset.sum_singleton, cA, cC, cG, cT, hl]
  norm_num [logb_two_quarter]

/-! Claim theorems. -/

/-- Claim C1: for every candidate that passes the SV-type filter but is
ineligible (`svLength > maxLength` or not precise), or whose aligner or
split-locator stage fails, the emitted record carries the fallback
alleles — REF is the single uppercased reference base at the original
position, ALT is the bracketed symbolic type tag — and the emitted
position and END INFO field are unchanged from the input. -/
theorem fallback_alleles_and_coords {M : Type} (O : Oracle M) (maxlen : Int) (svType : SvTag)
    (seqStr : Str) (rec : BcfRecord)
    (h1 : rec.info.svtype = none ∨ rec.info.svtype = some (addID svType))
    (h2 : maxlen < svLength rec ∨ rec.info.precise = false ∨
          O.consRefAlignment (consensusOf rec) (windowOf seqStr rec) = none ∨
          (∃ m, O.consRefAlignment (consensusOf rec) (windowOf seqStr rec) = some m ∧
                O.findSplit m = none)) :
    ∃ s, processRecord O maxlen svType seqStr rec = some s ∧
      s.out.refAllele = toUpperStr (sliceStr seqStr rec.pos (rec.pos + 1)) ∧
      s.out.altAllele = ('<' :: (addID svType).toList) ++ ['>'] ∧
      s.out.pos = rec.pos ∧
      s.out.info.endPos = rec.info.endPos ∧
      s.out.info = rec.info := by
  refine ⟨processBody O maxlen svType seqStr rec,
    processRecord_eq_some O maxlen svType seqStr rec h1, ?_⟩
  have hf : (processBody O maxlen svType seqStr rec).out = fallbackRec svType seqStr rec := by
    apply processBody_fallback_out
    rcases h2 with h | h | h | h
    · exact Or.inl (fun hc => absurd hc.1 (not_le.mpr h))
    · refine Or.inl (fun hc => ?_)
      rw [h] at hc
      exact Bool.false_ne_true hc.2
    · exact Or.inr (Or.inl h)
    · exact Or.inr (Or.inr h)
  rw [hf]
  exact ⟨rfl, rfl, rfl, rfl, rfl⟩

/-- Witness for C1: an eligible candidate whose aligner fails is emitted
with the fallback alleles and untouched coordinates. -/
theorem fallback_alleles_and_coords_w :
    ∃ s, processRecord oracleNone 500 SvTag.del seqD recD = some s ∧
      s.out.refAllele = toUpperStr (sliceStr seqD recD.pos (recD.pos + 1)) ∧
      s.out.altAllele = ('<' :: (addID SvTag.del).toList) ++ ['>'] ∧
      s.out.pos = recD.pos ∧
      s.out.info.endPos = recD.info.endPos ∧
      s.out.info = recD.info :=
  fallback_alleles_and_coords oracleNone 500 SvTag.del seqD recD (Or.inl rfl)
    (Or.inr (Or.inr (Or.inl rfl)))

/-- Claim C2, counterexample: with a located breakpoint whose reference
span `[rStart, rEnd)` has length exactly 1, the emitted REF allele is the
bare anchor base, not the anchor base followed by the span as the claim
states. -/
theorem refined_ref_allele_cex :
    (processRecord (oracleOf spSingle) 500 SvTag.del seqD recD).map (fun s => s.out.refAllele) ≠
      some (substrT (windowOf seqD recD) (spSingle.rStart - 2) 1 ++
        substrT (windowOf seqD recD) (spSingle.rStart - 1) (spSingle.rEnd - spSingle.rStart)) := by
  decide

/-- Claim C2 (amended): on refinement success the emitted record has
position = window start + `rStart` − 2, REF = anchor base followed by the
reference span `[rStart, rEnd)` but only when that span has length at
least 2 (otherwise the bare anchor), ALT = the anchor base followed by the
consensus span `[cStart, cEnd)` but only when that span has length at
least 2, END = window start + `rEnd`, INSLEN = `cEnd − cStart − 1`,
SRQ = quality, and CE = entropy of the consensus. -/
theorem refined_record_fields {M : Type} (O : Oracle M) (maxlen : Int) (svType : SvTag)
    (seqStr : Str) (rec : BcfRecord) (m : M) (sp : Split)
    (h1 : rec.info.svtype = none ∨ rec.info.svtype = some (addID svType))
    (h2 : svLength rec ≤ maxlen ∧ rec.info.precise = true)
    (h3 : O.consRefAlignment (consensusOf rec) (windowOf seqStr rec) = some m)
    (h4 : O.findSplit m = some sp) :
    ∃ s, processRecord O maxlen svType seqStr rec = some s ∧
      s.out.pos = regStartOf rec + sp.rStart - 2 ∧
      s.out.refAllele = substrT (windowOf seqStr rec) (sp.rStart - 2) 1 ++
        (if sp.rStart + 1 < sp.rEnd then
          substrT (windowOf seqStr rec) (sp.rStart - 1) (sp.rEnd - sp.rStart) else []) ∧
      s.out.altAllele = substrT (windowOf seqStr rec) (sp.rStart - 2) 1 ++
        (if sp.cStart + 1 < sp.cEnd then
          substrT (consensusOf rec) (sp.cStart - 1) (sp.cEnd - sp.cStart) else []) ∧
      s.out.info.endPos = some (regStartOf rec + sp.rEnd) ∧
      s.out.info.inslen = some (sp.cEnd - sp.cStart - 1) ∧
      s.out.info.srq = some sp.quality ∧
      s.out.info.ce = some (entropy (consensusOf rec)) := by
  refine ⟨processBody O maxlen svType seqStr rec,
    processRecord_eq_some O maxlen svType seqStr rec h1, ?_⟩
  rw [processBody_refined O maxlen svType seqStr rec m sp h2 h3 h4]
  exact ⟨rfl, rfl, rfl, rfl, rfl, rfl, rfl⟩

/-- Witness for the amended C2 at a concrete breakpoint. -/
theorem refined_record_fields_w :
    ∃ s, processRecord (oracleOf spWide) 500 SvTag.del seqD recD = some s ∧
      s.out.pos = regStartOf recD + spWide.rStart - 2 ∧
      s.out.refAllele = substrT (windowOf seqD recD) (spWide.rStart - 2) 1 ++
        (if spWide.rStart + 1 < spWide.rEnd then
          substrT (windowOf seqD recD) (spWide.rStart - 1) (spWide.rEnd - spWide.rStart) else []) ∧
      s.out.altAllele = substrT (windowOf seqD recD) (spWide.rStart - 2) 1 ++
        (if spWide.cStart + 1 < spWide.cEnd then
          substrT (consensusOf recD) (spWide.cStart - 1) (spWide.cEnd - spWide.cStart) else []) ∧
      s.out.info.endPos = some (regStartOf recD + spWide.rEnd) ∧
      s.out.info.inslen = some (spWide.cEnd - spWide.cStart - 1) ∧
      s.out.info.srq = some spWide.quality ∧
      s.out.info.ce = some (entropy (consensusOf recD)) :=
  refined_record_fields (oracleOf spWide) 500 SvTag.del seqD recD () spWide (Or.inl rfl)
    (by decide) rfl rfl

/-- Claim C3: for every eligible candidate with `END` present, the
reference window handed to the aligner is exactly the uppercased
chromosome substring over `[max(pos − L, 0), min(end + L, N))`, `L` being
the consensus length and `N` the chromosome length. -/
theorem window_handed_to_aligner {M : Type} (O : Oracle M) (maxlen : Int) (svType : SvTag)
    (seqStr : Str) (rec : BcfRecord) (e : Int)
    (h1 : rec.info.svtype = none ∨ rec.info.svtype = some (addID svType))
    (h2 : svLength rec ≤ maxlen ∧ rec.info.precise = true)
    (h3 : rec.info.endPos = some e) :
    ∃ s, processRecord O maxlen svType seqStr rec = some s ∧
      s.alignerInput = some (consensusOf rec, windowOf seqStr rec) ∧
      windowOf seqStr rec = windowSpec seqStr rec.pos e ((consensusOf rec).length : Int) := by
  refine ⟨processBody O maxlen svType seqStr rec,
    processRecord_eq_some O maxlen svType seqStr rec h1,
    processBody_alignerInput O maxlen svType seqStr rec h2, ?_⟩
  unfold windowOf windowSpec regStartOf regEndOf
  rw [toUpperStr_sliceStr, length_toUpperStr, h3]
  rfl

/-- Witness for C3 at a concrete candidate. -/
theorem window_handed_to_aligner_w :
    ∃ s, processRecord oracleNone 500 SvTag.del seqD recD = some s ∧
      s.alignerInput = some (consensusOf recD, windowOf seqD recD) ∧
      windowOf seqD recD = windowSpec seqD recD.pos 4 ((consensusOf recD).length : Int) :=
  window_handed_to_aligner oracleNone 500 SvTag.del seqD recD 4 (Or.inl rfl) (by decide) rfl

/-- Claim C4: refinement is attempted exactly when the SVTYPE
INFO field equals the requested SV type or is absent, and
`svLength ≤ maxLength` and the PRECISE flag is present, `svLength`
being END − pos when END is present and 1 otherwise. -/
theorem refinement_attempted_iff {M : Type} (O : Oracle M) (maxlen : Int) (svType : SvTag)
    (seqStr : Str) (rec : BcfRecord) :
    (∃ s, processRecord O maxlen svType seqStr rec = some s ∧ s.alignerInput.isSome = true) ↔
    ((rec.info.svtype = none ∨ rec.info.svtype = some (addID svType)) ∧
     svLength rec ≤ maxlen ∧ rec.info.precise = true) := by
  constructor
  · rintro ⟨s, hs, hsome⟩
    by_cases h1 : rec.info.svtype = none ∨ rec.info.svtype = some (addID svType)
    · refine ⟨h1, ?_⟩
      by_cases h2 : svLength rec ≤ maxlen ∧ rec.info.precise = true
      · exact h2
      · exfalso
        rw [processRecord_eq_some O maxlen svType seqStr rec h1] at hs
        injection hs with hs
        rw [← hs] at hsome
        have hni : (processBody O maxlen svType seqStr rec).alignerInput = none := by
          unfold processBody
          rw [if_neg h2]
        rw [hni] at hsome
        simp at hsome
    · rw [processRecord_eq_none O maxlen svType seqStr rec h1] at hs
      cases hs
  · rintro ⟨h1, h2⟩
    refine ⟨processBody O maxlen svType seqStr rec,
      processRecord_eq_some O maxlen svType seqStr rec h1, ?_⟩
    rw [processBody_alignerInput O maxlen svType seqStr rec h2]
    rfl

/-- Claim C6: when the reference genome file is missing, not a regular
file, or empty, `main` exits non-zero with a diagnostic and the core
annotation routine is never invoked. -/
theorem main_rejects_bad_reference (helpOrNoInfile genomeExists genomeIsRegular : Bool)
    (genomeSize : Nat) (svType : String)
    (h1 : helpOrNoInfile = false)
    (h2 : genomeExists = false ∨ genomeIsRegular = false ∨ genomeSize = 0) :
    (mainRun helpOrNoInfile genomeExists genomeIsRegular genomeSize svType).exitCode ≠ 0 ∧
    (mainRun helpOrNoInfile genomeExists genomeIsRegular genomeSize svType).invokedCore = false ∧
    (mainRun helpOrNoInfile genomeExists genomeIsRegular genomeSize svType).diag =
      ["Reference file is missing: "] := by
  subst h1
  have hc : (genomeExists && genomeIsRegular && !(genomeSize == 0)) = false := by
    rcases h2 with h | h | h <;> simp [h]
  simp [mainRun, hc]

/-- Witness for C6: an existing but empty reference file is rejected. -/
theorem main_rejects_bad_reference_w :
    (mainRun false true true 0 "DEL").exitCode ≠ 0 ∧
    (mainRun false true true 0 "DEL").invokedCore = false ∧
    (mainRun false true true 0 "DEL").diag = ["Reference file is missing: "] :=
  main_rejects_bad_reference false true true 0 "DEL" rfl (Or.inr (Or.inr rfl))

/-- Claim C7: on refinement success the emitted INSLEN value is
`cEnd − cStart − 1`, which is non-negative whenever the locator returned
`cEnd > cStart`. -/
theorem refined_inslen_nonneg {M : Type} (O : Oracle M) (maxlen : Int) (svType : SvTag)
    (seqStr : Str) (rec : BcfRecord) (m : M) (sp : Split)
    (h1 : rec.info.svtype = none ∨ rec.info.svtype = some (addID svType))
    (h2 : svLength rec ≤ maxlen ∧ rec.info.precise = true)
    (h3 : O.consRefAlignment (consensusOf rec) (windowOf seqStr rec) = some m)
    (h4 : O.findSplit m = some sp)
    (h5 : sp.cStart < sp.cEnd) :
    ∃ s, processRecord O maxlen svType seqStr rec = some s ∧
      s.out.info.inslen = some (sp.cEnd - sp.cStart - 1) ∧
      0 ≤ sp.cEnd - sp.cStart - 1 := by
  refine ⟨processBody O maxlen svType seqStr rec,
    processRecord_eq_some O maxlen svType seqStr rec h1, ?_, by omega⟩
  rw [processBody_refined O maxlen svType seqStr rec m sp h2 h3 h4]
  rfl

/-- Witness for C7 at a concrete breakpoint with `cEnd > cStart`. -/
theorem refined_inslen_nonneg_w :
    ∃ s, processRecord (oracleOf spWide) 500 SvTag.del seqD recD = some s ∧
      s.out.info.inslen = some (spWide.cEnd - spWide.cStart - 1) ∧
      0 ≤ spWide.cEnd - spWide.cStart - 1 :=
  refined_inslen_nonneg (oracleOf spWide) 500 SvTag.del seqD recD () spWide (Or.inl rfl)
    (by decide) rfl rfl (by decide)

/-- Claim C8: on the refined path the homology detector is invoked and its
result is computed, yet the MICROHOMLEN INFO field of the emitted record
is left untouched even though the output header declares MICROHOMLEN; the
written INFO fields are exactly END, INSLEN, SRQ and CE, and the
remaining INFO fields are unmodified. -/
theorem refined_microhomlen_frame {M : Type} (O : Oracle M) (maxlen : Int) (svType : SvTag)
    (seqStr : Str) (rec : BcfRecord) (m : M) (sp : Split) (ids : List String)
    (h1 : rec.info.svtype = none ∨ rec.info.svtype = some (addID svType))
    (h2 : svLength rec ≤ maxlen ∧ rec.info.precise = true)
    (h3 : O.consRefAlignment (consensusOf rec) (windowOf seqStr rec) = some m)
    (h4 : O.findSplit m = some sp) :
    ∃ s, processRecord O maxlen svType seqStr rec = some s ∧
      s.homology = some (O.findHomology m sp.gS sp.gE) ∧
      s.out.info.microhomlen = rec.info.microhomlen ∧
      s.out.info.svtype = rec.info.svtype ∧
      s.out.info.precise = rec.info.precise ∧
      s.out.info.consensus = rec.info.consensus ∧
      s.out.info.endPos = some (regStartOf rec + sp.rEnd) ∧
      s.out.info.inslen = some (sp.cEnd - sp.cStart - 1) ∧
      s.out.info.srq = some sp.quality ∧
      s.out.info.ce = some (entropy (consensusOf rec)) ∧
      "MICROHOMLEN" ∈ hdrOutInfo ids := by
  refine ⟨processBody O maxlen svType seqStr rec,
    processRecord_eq_some O maxlen svType seqStr rec h1, ?_⟩
  rw [processBody_refined O maxlen svType seqStr rec m sp h2 h3 h4]
  refine ⟨rfl, rfl, rfl, rfl, rfl, rfl, rfl, rfl, rfl, ?_⟩
  simp [hdrOutInfo, hdrStep]

/-- Witness for C8 at a concrete breakpoint and header. -/
theorem refined_microhomlen_frame_w :
    ∃ s, processRecord (oracleOf spWide) 500 SvTag.del seqD recD = some s ∧
      s.homology = some ((oracleOf spWide).findHomology () spWide.gS spWide.gE) ∧
      s.out.info.microhomlen = recD.info.microhomlen ∧
      s.out.info.svtype = recD.info.svtype ∧
      s.out.info.precise = recD.info.precise ∧
      s.out.info.consensus = recD.info.consensus ∧
      s.out.info.endPos = some (regStartOf recD + spWide.rEnd) ∧
      s.out.info.inslen = some (spWide.cEnd - spWide.cStart - 1) ∧
      s.out.info.srq = some spWide.quality ∧
      s.out.info.ce = some (entropy (consensusOf recD)) ∧
      "MICROHOMLEN" ∈ hdrOutInfo ["END", "PE"] :=
  refined_microhomlen_frame (oracleOf spWide) 500 SvTag.del seqD recD () spWide ["END", "PE"]
    (Or.inl rfl) (by decide) rfl rfl

/-- Claim C9, counterexample: the stated precondition admits
`rStart = 6, rEnd = 4` on a window of length 3, where the anchor-base
read `svRefStr.substr(rStart-2, 1)` is out of range. -/
theorem compose_access_cex :
    ((2 : Int) ≤ 6 ∧ (1 : Int) ≤ 1 ∧
     (6 : Int) - 1 + ((4 : Int) - 6) ≤ (("ACG".toList).length : Int) ∧
     (1 : Int) - 1 + ((1 : Int) - 1) ≤ (("A".toList).length : Int)) ∧
    composeChecked ("A".toList) ("ACG".toList) 1 1 6 4 = none := by
  decide

/-- Claim C9 (amended): under the stated precondition strengthened by
`rStart ≤ rEnd`, every read of the refined-path allele composition is
in-bounds and the composition is well-defined. -/
theorem compose_access_safe (consensus svRefStr : Str) (cStart cEnd rStart rEnd : Int)
    (hr2 : 2 ≤ rStart) (hc1 : 1 ≤ cStart)
    (hrw : rStart - 1 + (rEnd - rStart) ≤ (svRefStr.length : Int))
    (hcw : cStart - 1 + (cEnd - cStart) ≤ (consensus.length : Int))
    (hre : rStart ≤ rEnd) :
    composeChecked consensus svRefStr cStart cEnd rStart rEnd =
      some (substrT svRefStr (rStart - 2) 1 ++
              (if rStart + 1 < rEnd then substrT svRefStr (rStart - 1) (rEnd - rStart) else []),
            substrT svRefStr (rStart - 2) 1 ++
              (if cStart + 1 < cEnd then substrT consensus (cStart - 1) (cEnd - cStart) else [])) := by
  by_cases hg1 : rStart + 1 < rEnd <;> by_cases hg2 : cStart + 1 < cEnd <;>
    simp [composeChecked, hg1, hg2, substrT,
      substrB_pos svRefStr (rStart - 2) 1 (by omega) (by omega),
      substrB_pos svRefStr (rStart - 1) (rEnd - rStart) (by omega) (by omega),
      substrB_pos consensus (cStart - 1) (cEnd - cStart) (by omega) (by omega)]

/-- Claim C5: the entropy scorer gives 0 on the empty string and on any
single-symbol string, 0 on `AAAA`, 2 bits on `ACGT`, and is invariant
under character permutation. -/
theorem entropy_properties :
    entropy [] = 0 ∧
    (∀ c : Char, entropy [c] = 0) ∧
    entropy ("AAAA".toList) = 0 ∧
    entropy ("ACGT".toList) = 2 ∧
    (∀ s t : Str, s.Perm t → entropy s = entropy t) :=
  ⟨entropy_nil, entropy_single, entropy_AAAA, entropy_ACGT, entropy_perm⟩

/-- Witness for C5: permutation invariance applied to a concrete
permutation. -/
theorem entropy_properties_w :
    ("ACGT".toList).Perm ("TGCA".toList) ∧
    entropy ("ACGT".toList) = entropy ("TGCA".toList) :=
  ⟨by decide, entropy_properties.2.2.2.2 ("ACGT".toList) ("TGCA".toList) (by decide)⟩

/-! Counting lemmas for the emission multiplicity claim. -/

theorem countP_emitChrom_zero {M : Type} (O : Oracle M) (maxlen : Int) (svType : SvTag)
    (seqStr : Str) (name : String) (recsE : List (Nat × BcfRecord)) (i : Nat)
    (h : ∀ q ∈ recsE, q.1 ≠ i) :
    (emitChrom O maxlen svType seqStr name recsE).countP (fun q => q.1 == i) = 0 := by
  induction recsE with
  | nil => rfl
  | cons a l ih =>
    have ha : a.1 ≠ i := h a (List.mem_cons_self a l)
    have hl : ∀ q ∈ l, q.1 ≠ i := fun q hq => h q (List.mem_cons_of_mem a hq)
    rw [emitChrom]
    by_cases hgg : (a.2.chrName == name) = true
    · rw [if_pos hgg]
      cases hF : processRecord O maxlen svType seqStr a.2 with
      | none => exact ih hl
      | some s =>
        rw [List.countP_cons, ih hl]
        simp [ha]
    · rw [if_neg hgg]
      exact ih hl

theorem countP_emitChrom {M : Type} (O : Oracle M) (maxlen : Int) (svType : SvTag)
    (seqStr : Str) (name : String) (recsE : List (Nat × BcfRecord)) (i : Nat) (r : BcfRecord)
    (hdist : recsE.Pairwise (fun a b => a.1 ≠ b.1))
    (hmem : (i, r) ∈ recsE) :
    (emitChrom O maxlen svType seqStr name recsE).countP (fun q => q.1 == i) =
    if r.chrName = name ∧
       (r.info.svtype = none ∨ r.info.svtype = some (addID svType)) then 1 else 0 := by
  induction recsE with
  | nil => cases hmem
  | cons a l ih =>
    rw [List.pairwise_cons] at hdist
    rcases List.mem_cons.mp hmem with heq | hmem2
    · have hzero : (emitChrom O maxlen svType seqStr name l).countP (fun q => q.1 == i) = 0 := by
        refine countP_emitChrom_zero O maxlen svType seqStr name l i fun q hq => ?_
        have := hdist.1 q hq
        rw [← heq] at this
        exact fun hqq => this hqq.symm
      rw [← heq, emitChrom]
      by_cases hgg : (((i, r) : Nat × BcfRecord).2.chrName == name) = true
      · rw [if_pos hgg]
        have hcn : r.chrName = name := by simpa using hgg
        by_cases hok : r.info.svtype = none ∨ r.info.svtype = some (addID svType)
        · rw [processRecord_eq_some O maxlen svType seqStr r hok, List.countP_cons, hzero]
          simp [hcn, hok]
        · rw [processRecord_eq_none O maxlen svType seqStr r hok, hzero]
          simp [hok]
      · rw [if_neg hgg]
        have hcn : ¬(r.chrName = name) := by simpa using hgg
        rw [hzero]
        simp [hcn]
    · have ha : a.1 ≠ i := fun h => (hdist.1 (i, r) hmem2) (h ▸ rfl)
      rw [emitChrom]
      by_cases hgg : (a.2.chrName == name) = true
      · rw [if_pos hgg]
        cases hF : processRecord O maxlen svType seqStr a.2 with
        | none => exact ih hdist.2 hmem2
        | some s =>
          rw [List.countP_cons, ih hdist.2 hmem2]
          simp [ha]
      · rw [if_neg hgg]
        exact ih hdist.2 hmem2

/-- Claim C10: a candidate record is written exactly once when its
chromosome occurs in the reference genome and its SVTYPE is absent or
matches the requested type, and is never written otherwise. -/
theorem emitted_exactly_once {M : Type} (O : Oracle M) (maxlen : Int) (svType : SvTag)
    (hdrNames : List String) (genome : List (String × Str)) (recs : List BcfRecord)
    (i : Nat) (r : BcfRecord)
    (hg : (genome.map Prod.fst).Nodup)
    (hr : recs[i]? = some r)
    (hh : r.chrName ∈ hdrNames) :
    (runAnnotateOut O maxlen svType hdrNames genome recs).countP (fun q => q.1 == i) =
    if r.chrName ∈ genome.map Prod.fst ∧
       (r.info.svtype = none ∨ r.info.svtype = some (addID svType)) then 1 else 0 := by
  have hmem : (i, r) ∈ recs.enum := List.mk_mem_enum_iff_getElem?.mpr hr
  have hfst : (recs.enum.map Prod.fst).Nodup := by
    rw [List.enum_map_fst]
    exact List.nodup_range _
  have hdist : recs.enum.Pairwise (fun a b => a.1 ≠ b.1) := List.pairwise_map.mp hfst
  revert hg
  induction genome with
  | nil =>
    intro hg
    simp [runAnnotateOut]
  | cons p gs ih =>
    intro hg
    rw [List.map_cons, List.nodup_cons] at hg
    rw [runAnnotateOut, List.flatMap_cons, List.countP_append]
    have hrest := ih hg.2
    rw [runAnnotateOut] at hrest
    by_cases hcn : r.chrName = p.1
    · have hin : p.1 ∈ hdrNames := hcn ▸ hh
      rw [perChrom, if_pos hin,
        countP_emitChrom O maxlen svType p.2 p.1 recs.enum i r hdist hmem, hrest]
      have hnot : ¬(r.chrName ∈ gs.map Prod.fst ∧
          (r.info.svtype = none ∨ r.info.svtype = some (addID svType))) :=
        fun hc => hg.1 (hcn ▸ hc.1)
      rw [if_neg hnot]
      by_cases hok : r.info.svtype = none ∨ r.info.svtype = some (addID svType)
      · simp [hcn, hok]
      · simp [hcn, hok]
    · have hzero : (perChrom O maxlen svType hdrNames recs.enum p).countP
          (fun q => q.1 == i) = 0 := by
        rw [perChrom]
        by_cases hin : p.1 ∈ hdrNames
        · rw [if_pos hin,
            countP_emitChrom O maxlen svType p.2 p.1 recs.enum i r hdist hmem,
            if_neg (fun hc => hcn hc.1)]
        · rw [if_neg hin]
          rfl
      rw [hzero, hrest]
      by_cases hmemg : r.chrName ∈ gs.map Prod.fst <;>
        by_cases hok : r.info.svtype = none ∨ r.info.svtype = some (addID svType) <;>
          simp [hcn, hmemg, hok]

/-- Witness for C10: a matching record on a genome chromosome is emitted
exactly once. -/
theorem emitted_exactly_once_w :
    (runAnnotateOut oracleNone 500 SvTag.del ["chr1"] [("chr1", seqD)] [recD]).countP
      (fun q => q.1 == 0) =
    if recD.chrName ∈ ([("chr1", seqD)].map Prod.fst) ∧
       (recD.info.svtype = none ∨ recD.info.svtype = some (addID SvTag.del)) then 1 else 0 :=
  emitted_exactly_once oracleNone 500 SvTag.del ["chr1"] [("chr1", seqD)] [recD] 0 recD
    (by decide) rfl (by decide)

/-- Witness for the amended C9 at concrete in-range coordinates. -/
theorem compose_access_safe_w :
    composeChecked ("ACGT".toList) ("ACGTAC".toList) 1 3 2 5 =
      some (substrT ("ACGTAC".toList) ((2 : Int) - 2) 1 ++
              (if (2 : Int) + 1 < 5 then substrT ("ACGTAC".toList) ((2 : Int) - 1) ((5 : Int) - 2) else []),
            substrT ("ACGTAC".toList) ((2 : Int) - 2) 1 ++
              (if (1 : Int) + 1 < 3 then substrT ("ACGT".toList) ((1 : Int) - 1) ((3 : Int) - 1) else [])) :=
  compose_access_safe ("ACGT".toList) ("ACGTAC".toList) 1 3 2 5 (by decide) (by decide)
    (by decide) (by decide) (by decide)

end DellyAnnotate
